import Mathlib

/-!
Verification development for the floorplan editor interaction layer.

The definitions below are a shallow embedding of the controller in
src/unnamed/part_000 (class FloorplanController) and of the observer
registry in src/utils/callback.ts (class Callback).  Numeric
coordinates are modelled as rationals, which carry the arithmetic of
the source exactly.  Entities (corners, walls, items) are identified
by natural-number identifiers: reference equality in the source is
modelled as identifier equality.  External collaborators
(FloorplanModel hit tests, entity geometry methods, the debounce
package) are either passed in through an environment record or, where
a claim depends on their behaviour, modelled from the specification
with an explicit note.
-/

/-! ## Unit-conversion constants (src/unnamed/part_000 lines 11-17) -/

/-- Snap tolerance in cm: how much a corner may move to make a wall axis aligned. -/
def snapTolerance : ℚ := 25

/-- Centimetres per foot, 30.48. -/
def cmPerFoot : ℚ := 3048 / 100

/-- Display ratio: pixels per foot, 15.0. -/
def pixelsPerFoot : ℚ := 15

/-- Centimetres per device pixel. -/
def cmPerPixel : ℚ := cmPerFoot * (1 / pixelsPerFoot)

/-- Device pixels per centimetre, the inverse of cmPerPixel. -/
def pixelsPerCm : ℚ := 1 / cmPerPixel

/-! ## Coordinate transform (convertX / convertY, lines 402-410, and the
pixel-to-model transform used by the pointer handler, lines 194-195) -/

/-- Convert a model (THREEjs) x coordinate to a canvas pixel coordinate,
given the current view origin: source method FloorplanController.convertX. -/
def convertX (originX x : ℚ) : ℚ :=
  (x - originX * cmPerPixel) * pixelsPerCm

/-- Convert a model y coordinate to a canvas pixel coordinate:
source method FloorplanController.convertY. -/
def convertY (originY y : ℚ) : ℚ :=
  (y - originY * cmPerPixel) * pixelsPerCm

/-- The pixel-to-model transform exactly as the pointer-move handler computes
it on each axis (line 194): multiply the canvas pixel coordinate by
cmPerPixel and add origin times cmPerPixel. -/
def pixelToModel (origin p : ℚ) : ℚ :=
  p * cmPerPixel + origin * cmPerPixel

/-! ## Observer registry (src/utils/callback.ts)

Listeners are values of an arbitrary type L with decidable equality,
standing for function references compared with JavaScript identity.
Firing is modelled by its observable invocation trace: the list of
(listener, payload) invocations, in the order they happen. -/

/-- The callbacks array of a Callback channel. -/
structure Callback (L : Type) where
  callbacks : List L
deriving Repr

/-- Source method Callback.fire: invokes every registered listener in
registration order, passing the (optional) payload to each.  Modelled by the
invocation trace it produces. -/
def Callback.fire {L T : Type} (c : Callback L) (event : Option T) : List (L × Option T) :=
  c.callbacks.map (fun cb => (cb, event))

/-- Source method Callback.add: pushes a listener at the end of the array. -/
def Callback.add {L : Type} (c : Callback L) (fn : L) : Callback L :=
  { callbacks := c.callbacks ++ [fn] }

/-- Source method Callback.remove: filters the array, keeping the listeners
that are not identical to the argument. -/
def Callback.remove {L : Type} [DecidableEq L] (c : Callback L) (fn : L) : Callback L :=
  { callbacks := c.callbacks.filter (fun f => f != fn) }

/-! ## Walls and the duplicate-wall suppressor (lines 324-346)

A wall records its identity and the identities of the two corners
returned by getStart and getEnd. -/

/-- A wall: identity plus the two corner identities of its endpoints. -/
structure Wall where
  id : Nat
  getStart : Nat
  getEnd : Nat
deriving DecidableEq, Repr

/-- The duplicate test of checkWallDuplicates (lines 331-338): two walls are
duplicates when they connect the same two corners in either direction. -/
def sameWallPair (wall wallCheck : Wall) : Bool :=
  (wall.getEnd == wallCheck.getEnd && wall.getStart == wallCheck.getStart)
  || (wall.getEnd == wallCheck.getStart && wall.getStart == wallCheck.getEnd)

/-- The collection loop of checkWallDuplicates (lines 327-342): for every pair
of indices i < k, if the walls differ (reference inequality, modelled by id)
and connect the same corner pair, the later wall is pushed onto the
duplicates list. -/
def wallDuplicates : List Wall → List Wall
  | [] => []
  | wall :: rest =>
      rest.filter (fun wallCheck => wall.id != wallCheck.id && sameWallPair wall wallCheck)
        ++ wallDuplicates rest

/-- Modelled from the spec: Wall.remove (floorplan-entities/wall.model, not
under src) removes the wall from the floorplan wall list; removal is by
reference, modelled as removal by identifier.  Removing an absent wall is a
no-op. -/
def wallRemoveFromList (walls : List Wall) (w : Wall) : List Wall :=
  walls.filter (fun x => x.id != w.id)

/-- Source method FloorplanController.checkWallDuplicates (lines 324-346):
collect the duplicates over all index pairs, then remove each collected wall
from the wall list. -/
def checkWallDuplicates (walls : List Wall) : List Wall :=
  (wallDuplicates walls).foldl wallRemoveFromList walls

/-- Follows the claim wording, for comparison with checkWallDuplicates: walk
the list keeping each wall unless some wall appearing earlier in the list
(the seen accumulator) connects the same two corners in either orientation. -/
def wallDedupSpecAux (seen : List Wall) : List Wall → List Wall
  | [] => []
  | w :: rest =>
      if seen.any (fun p => sameWallPair p w) then
        wallDedupSpecAux (seen ++ [w]) rest
      else
        w :: wallDedupSpecAux (seen ++ [w]) rest

/-- The claim-side duplicate suppressor: keep, for each unordered corner
pair, only the first wall of the list connecting that pair. -/
def wallDedupSpec (walls : List Wall) : List Wall :=
  wallDedupSpecAux [] walls

/-! ## Controller state (fields of class FloorplanController, lines 24-101)

The controller also owns the floorplan collections it edits through the
model: corner, wall and item lists, and the model selection.  Items carry no
geometry relevant to the claims and are identified by number.  Observable
effects are logged: the mode-changed events fired, the number of debounced
change notifications scheduled (calls of emitChanges), and the number of
redraw requests issued to the view. -/

/-- The editor mode enumeration (floorplan-mode.enum). -/
inductive FloorplanMode
  | MOVE
  | DRAW
  | DELETE
deriving DecidableEq, Repr

/-- A corner: identity plus position in model units. -/
structure Corner where
  id : Nat
  x : ℚ
  y : ℚ
deriving DecidableEq, Repr

/-- The mutable state of FloorplanController together with the floorplan
collections it edits and the logs of its observable effects. -/
structure ControllerState where
  mode : FloorplanMode
  activeWall : Option Nat
  activeCorner : Option Nat
  activeItem : Option Nat
  originX : ℚ
  originY : ℚ
  targetX : ℚ
  targetY : ℚ
  lastNode : Option Corner
  mouseDown : Bool
  mouseMoved : Bool
  mouseX : ℚ
  mouseY : ℚ
  lastX : ℚ
  lastY : ℚ
  lastRawX : ℚ
  lastRawY : ℚ
  corners : List Corner
  walls : List Wall
  items : List Nat
  selectedItem : Option Nat
  modeEvents : List FloorplanMode
  scheduledChanges : Nat
  redraws : Nat
deriving DecidableEq, Repr

/-- The inputs a pointer event brings from outside the controller: the raw
event coordinates, the canvas bounding rectangle, the hit-test answers of the
floorplan model at the new pointer position, the boolean results of the
item-specific handlers, the merge result, fresh entity identifiers, and the
geometric effect of the external entity methods on the corner and wall
collections. -/
structure PointerEnv where
  clientX : ℚ
  clientY : ℚ
  rectLeft : ℚ
  rectTop : ℚ
  hoverItem : Option Nat
  hoverCorner : Option Nat
  hoverWall : Option Nat
  selectedMousemoveHandled : Bool
  selectedMouseupHandled : Bool
  merged : Bool
  newCornerId : Nat
  newWallId : Nat
  dragCorners : List Corner → List Corner
  mergeCorners : List Corner → List Corner
  mergeWalls : List Wall → List Wall

/-- Source field emitChanges (lines 64-66): schedules one debounced change
notification.  Modelled by counting the scheduling calls. -/
def emitChanges (s : ControllerState) : ControllerState :=
  { s with scheduledChanges := s.scheduledChanges + 1 }

/-- Source method FloorplanController.updateTarget (lines 138-154): in DRAW
mode with a last placed corner, snap each axis of the draw target to that
corner when the pointer is within snapTolerance of it; otherwise the target
is the raw pointer position. -/
def updateTarget (s : ControllerState) : ControllerState :=
  match s.mode, s.lastNode with
  | FloorplanMode.DRAW, some lastNode =>
      let targetX := if |s.mouseX - lastNode.x| < snapTolerance then lastNode.x else s.mouseX
      let targetY := if |s.mouseY - lastNode.y| < snapTolerance then lastNode.y else s.mouseY
      { s with targetX := targetX, targetY := targetY }
  | _, _ => { s with targetX := s.mouseX, targetY := s.mouseY }

/-- Source method FloorplanController.setMode (lines 372-381): clear the
active wall, corner and item, the last placed corner and the model selection,
install the new mode, recompute the draw target, and fire one mode-changed
event carrying the new mode. -/
def setMode (s : ControllerState) (mode : FloorplanMode) : ControllerState :=
  let s1 := { s with activeWall := none, activeCorner := none, activeItem := none,
                     lastNode := none, selectedItem := none, mode := mode }
  let s2 := updateTarget s1
  { s2 with modeEvents := s2.modeEvents ++ [mode] }

/-- Source method escapeKey (lines 134-136): force MOVE mode. -/
def escapeKey (s : ControllerState) : ControllerState :=
  setMode s FloorplanMode.MOVE

/-- Modelled from the spec: Corner.removeAll (floorplan-entities/corner.model,
not under src) removes the corner together with all its connected walls. -/
def cornerRemoveAll (s : ControllerState) (c : Nat) : ControllerState :=
  { s with corners := s.corners.filter (fun q => q.id != c),
           walls := s.walls.filter (fun w => w.getStart != c && w.getEnd != c) }

/-- Modelled from the spec: Wall.remove deletes the wall from the wall list. -/
def wallRemoveState (s : ControllerState) (w : Nat) : ControllerState :=
  { s with walls := s.walls.filter (fun x => x.id != w) }

/-- Modelled from the spec: Item.remove deletes the item from the item list. -/
def itemRemoveState (s : ControllerState) (i : Nat) : ControllerState :=
  { s with items := s.items.filter (fun x => x != i) }

/-- Source method FloorplanController.mousedown (lines 156-187): record the
press position; in DELETE mode remove the active corner (with its walls),
else the active wall, else the active item, each removal scheduling a
debounced change notification, and fall back to switching to MOVE mode when
nothing is active; in other modes forward the press to the selected item
(no controller-visible effect); finally request a redraw. -/
def mousedown (env : PointerEnv) (s : ControllerState) : ControllerState :=
  let s0 := { s with mouseDown := true, mouseMoved := false,
                     lastX := s.mouseX, lastY := s.mouseY,
                     lastRawX := env.clientX, lastRawY := env.clientY }
  let s1 :=
    if s0.mode = FloorplanMode.DELETE then
      match s0.activeCorner with
      | some c => emitChanges (cornerRemoveAll s0 c)
      | none =>
        match s0.activeWall with
        | some w => emitChanges (wallRemoveState s0 w)
        | none =>
          match s0.activeItem with
          | some i => emitChanges (itemRemoveState s0 i)
          | none => setMode s0 FloorplanMode.MOVE
    else s0
  { s1 with redraws := s1.redraws + 1 }

/-- The pointer-position update at the top of mousemove (lines 190-195): mark
the pointer as moved and recompute the model-space pointer position from the
raw event coordinates, the canvas rectangle and the view origin. -/
def mousemoveUpdateMouse (env : PointerEnv) (s : ControllerState) : ControllerState :=
  { s with mouseMoved := true,
           mouseX := (env.clientX - env.rectLeft) * cmPerPixel + s.originX * cmPerPixel,
           mouseY := (env.clientY - env.rectTop) * cmPerPixel + s.originY * cmPerPixel }

/-- The draw-target block of mousemove (lines 199-206): in DRAW mode, or in
MOVE mode with the button down, recompute the snapped target and redraw. -/
def targetStage (s : ControllerState) : ControllerState :=
  if s.mode = FloorplanMode.DRAW ∨ (s.mode = FloorplanMode.MOVE ∧ s.mouseDown) then
    let s1 := updateTarget s
    { s1 with redraws := s1.redraws + 1 }
  else s

/-- The hit-testing block of mousemove (lines 209-240), run when the mode is
not DRAW and the button is up.  The draw flag starts as the comparison of the
hovered item with the active item; each selection change sets it; a redraw is
requested when it ends up set. -/
def hitTest (env : PointerEnv) (s : ControllerState) : ControllerState :=
  let draw := env.hoverItem != s.activeItem
  match env.hoverItem with
  | some hoverItem =>
      let s1 := { s with activeItem := some hoverItem, activeCorner := none, activeWall := none }
      if draw then { s1 with redraws := s1.redraws + 1 } else s1
  | none =>
      let s1 := { s with activeItem := none }
      let cornerChanged := env.hoverCorner != s1.activeCorner
      let s2 := if cornerChanged then { s1 with activeCorner := env.hoverCorner } else s1
      let draw2 := if cornerChanged then true else draw
      let wallChanged := env.hoverWall != s2.activeWall
      let s3 :=
        if s2.activeCorner = none then
          if wallChanged then { s2 with activeWall := env.hoverWall } else s2
        else { s2 with activeWall := none }
      let draw3 := if s2.activeCorner = none then (if wallChanged then true else draw2) else draw2
      if draw3 then { s3 with redraws := s3.redraws + 1 } else s3

/-- The guard of the hit-testing block (line 209). -/
def hitTestStage (env : PointerEnv) (s : ControllerState) : ControllerState :=
  if s.mode ≠ FloorplanMode.DRAW ∧ s.mouseDown = false then hitTest env s else s

/-- The panning block of mousemove (lines 243-249): with the button down and
no active entity, shift the origin by the raw pointer delta and redraw. -/
def panStage (env : PointerEnv) (s : ControllerState) : ControllerState :=
  if s.mouseDown ∧ s.activeCorner = none ∧ s.activeWall = none ∧ s.activeItem = none then
    { s with originX := s.originX - (env.clientX - s.lastRawX),
             originY := s.originY - (env.clientY - s.lastRawY),
             lastRawX := env.clientX,
             lastRawY := env.clientY,
             redraws := s.redraws + 1 }
  else s

/-- The dragging block of mousemove (lines 252-287), in MOVE mode with the
button down: item-owned drag handling, else a relative move of the active
item, else a move of the active corner or wall followed by the duplicate-wall
check; each mutation schedules a change notification; finally the last
pointer position is updated and a redraw requested.  The geometric effect of
the external entity move methods on the corner collection comes from the
environment. -/
def dragStage (env : PointerEnv) (s : ControllerState) : ControllerState :=
  if s.mode = FloorplanMode.MOVE ∧ s.mouseDown then
    let s1 :=
      if s.selectedItem.isSome ∧ s.selectedItem = s.activeItem ∧ env.selectedMousemoveHandled then
        emitChanges s
      else if s.activeItem.isSome then
        emitChanges s
      else if s.activeCorner.isSome then
        emitChanges { s with corners := env.dragCorners s.corners,
                             walls := checkWallDuplicates s.walls }
      else if s.activeWall.isSome then
        emitChanges { s with corners := env.dragCorners s.corners,
                             walls := checkWallDuplicates s.walls }
      else s
    { s1 with lastX := s1.mouseX, lastY := s1.mouseY, redraws := s1.redraws + 1 }
  else s

/-- Source method FloorplanController.mousemove (lines 189-288): the pointer
update followed by the target, hit-testing, panning and dragging blocks. -/
def mousemove (env : PointerEnv) (s : ControllerState) : ControllerState :=
  dragStage env (panStage env (hitTestStage env (targetStage (mousemoveUpdateMouse env s))))

/-- The selected-item block at the top of mouseup (lines 292-299): when a
selected item exists and its release handler reports a change, redraw and
schedule a change notification. -/
def mouseupSelected (env : PointerEnv) (s : ControllerState) : ControllerState :=
  if s.selectedItem.isSome then
    if env.selectedMouseupHandled then
      emitChanges { s with redraws := s.redraws + 1 }
    else s
  else s

/-- The drawing block of mouseup (lines 302-313): place a new corner at the
draw target, connect it to the last placed corner when one exists, let the
corner merge with intersected geometry (the geometric effect comes from the
environment), switch back to MOVE mode when a merge happened and a previous
node existed, remember the new corner as the last node, deduplicate walls,
redraw and schedule a change notification. -/
def mouseupDraw (env : PointerEnv) (s : ControllerState) : ControllerState :=
  let corner : Corner := { id := env.newCornerId, x := s.targetX, y := s.targetY }
  let s1 := { s with corners := s.corners ++ [corner] }
  let s2 :=
    match s1.lastNode with
    | some lastNode =>
        { s1 with walls := s1.walls ++ [({ id := env.newWallId, getStart := lastNode.id, getEnd := corner.id } : Wall)] }
    | none => s1
  let s3 := { s2 with corners := env.mergeCorners s2.corners, walls := env.mergeWalls s2.walls }
  let s4 := if env.merged ∧ s3.lastNode.isSome then setMode s3 FloorplanMode.MOVE else s3
  let s5 := { s4 with lastNode := some corner }
  let s6 := { s5 with walls := checkWallDuplicates s5.walls }
  emitChanges { s6 with redraws := s6.redraws + 1 }

/-- Source method FloorplanController.mouseup (lines 290-322): release the
button, run the selected-item block, then the drawing block in DRAW mode with
no movement since press, or, in MOVE mode with no movement since press, set
the model selection to the active item (or clear it) and redraw. -/
def mouseup (env : PointerEnv) (s : ControllerState) : ControllerState :=
  let s0 := { s with mouseDown := false }
  let s1 := mouseupSelected env s0
  if s1.mode = FloorplanMode.DRAW ∧ s1.mouseMoved = false then
    mouseupDraw env s1
  else if s1.mouseMoved = false ∧ s1.mode = FloorplanMode.MOVE then
    let s2 :=
      match s1.activeItem with
      | some it => { s1 with selectedItem := some it }
      | none => { s1 with selectedItem := none }
    { s2 with redraws := s2.redraws + 1 }
  else s1

/-- Source method FloorplanController.mouseleave (lines 348-355): release the
button, clear every active selection and redraw. -/
def mouseleave (s : ControllerState) : ControllerState :=
  { s with mouseDown := false, activeCorner := none, activeWall := none,
           activeItem := none, redraws := s.redraws + 1 }

/-- The controller operations of the claims: mode change and the pointer and
keyboard handlers. -/
inductive ControllerOp
  | opSetMode (mode : FloorplanMode)
  | opMousedown (env : PointerEnv)
  | opMousemove (env : PointerEnv)
  | opMouseup (env : PointerEnv)
  | opMouseleave
  | opEscapeKey

/-- One controller operation applied to a state. -/
def step : ControllerOp → ControllerState → ControllerState
  | ControllerOp.opSetMode m, s => setMode s m
  | ControllerOp.opMousedown env, s => mousedown env s
  | ControllerOp.opMousemove env, s => mousemove env s
  | ControllerOp.opMouseup env, s => mouseup env s
  | ControllerOp.opMouseleave, s => mouseleave s
  | ControllerOp.opEscapeKey, s => escapeKey s

/-! ## Debounced change notification (line 64-66 wraps fireChanges in
debounce)

Modelled from the spec: the debounce package is an external dependency, not
under src.  Per the specification, the emitter is a cancellable deferred
timer: arming it cancels any pending timer and starts a fresh quiet
interval; when the interval elapses the notification fires once.  Time is
discrete: one tick is one unit of the quiet interval.  The state keeps the
list of armed timers (remaining quiet time of each) so that the at-most-one
pending property is a statement, not a typing artifact, together with the
count of notifications delivered. -/

/-- State of the debounced emitter: armed timers and delivered count. -/
structure DebounceState where
  pending : List Nat
  fired : Nat
deriving DecidableEq, Repr

/-- The quiet interval of the debounced emitter, in ticks (the debounce
package default of 100 ms). -/
def debounceWait : Nat := 100

/-- Modelled from the spec: scheduling a notification cancels any pending
timer and arms a fresh one with a full quiet interval. -/
def debTrigger (d : DebounceState) : DebounceState :=
  { pending := [debounceWait], fired := d.fired }

/-- Modelled from the spec: one tick of time passing; every armed timer
counts down, and a timer reaching zero delivers its notification and is
disarmed. -/
def debTick (d : DebounceState) : DebounceState :=
  { pending := (d.pending.map (fun t => t - 1)).filter (fun t => t ≠ 0),
    fired := d.fired + ((d.pending.map (fun t => t - 1)).filter (fun t => t = 0)).length }

/-- A burst of schedulings: for each entry g of gaps, trigger the emitter and
then let g ticks pass before the next trigger. -/
def debRunGaps (d : DebounceState) (gaps : List Nat) : DebounceState :=
  gaps.foldl (fun d g => debTick^[g] (debTrigger d)) d

/-- At most one of the active corner, active wall and active item is
non-null: at least two of the three are null. -/
def activeExclusive (s : ControllerState) : Prop :=
  (s.activeCorner = none ∧ s.activeWall = none) ∨
  (s.activeCorner = none ∧ s.activeItem = none) ∨
  (s.activeWall = none ∧ s.activeItem = none)

/-! ## Concrete fixtures used by the witness theorems -/

/-- A concrete corner used by witnesses. -/
def demoCorner : Corner := { id := 7, x := 100, y := 200 }

/-- A concrete controller state used by witnesses. -/
def demoState : ControllerState :=
  { mode := FloorplanMode.MOVE, activeWall := none, activeCorner := none, activeItem := none,
    originX := 0, originY := 0, targetX := 0, targetY := 0, lastNode := none,
    mouseDown := false, mouseMoved := false, mouseX := 0, mouseY := 0,
    lastX := 0, lastY := 0, lastRawX := 0, lastRawY := 0,
    corners := [], walls := [], items := [], selectedItem := none,
    modeEvents := [], scheduledChanges := 0, redraws := 0 }

/-- A concrete DRAW-mode state used by witnesses: the pointer is within the
snap tolerance of the last node on x and outside it on y. -/
def demoDrawState : ControllerState :=
  { demoState with mode := FloorplanMode.DRAW, lastNode := some demoCorner,
                   mouseX := 110, mouseY := 300 }

/-- A concrete wall list used by witnesses: walls 1 and 2 connect the same
corner pair in opposite orientations, wall 3 connects a distinct pair. -/
def demoWalls : List Wall :=
  [{ id := 1, getStart := 10, getEnd := 20 },
   { id := 2, getStart := 20, getEnd := 10 },
   { id := 3, getStart := 30, getEnd := 40 }]

/-- A concrete pointer environment used by witnesses. -/
def demoEnv : PointerEnv :=
  { clientX := 30, clientY := 40, rectLeft := 0, rectTop := 0,
    hoverItem := none, hoverCorner := none, hoverWall := none,
    selectedMousemoveHandled := false, selectedMouseupHandled := false, merged := true,
    newCornerId := 3, newWallId := 4,
    dragCorners := fun c => c, mergeCorners := fun c => c, mergeWalls := fun w => w }

/-- A concrete DELETE-mode state used by witnesses: corner 10 is active and
demoWalls walls 1 and 2 touch corner 10. -/
def demoDeleteState : ControllerState :=
  { demoState with mode := FloorplanMode.DELETE, activeCorner := some 10,
                   corners := [{ id := 10, x := 0, y := 0 }, { id := 20, x := 5, y := 5 }],
                   walls := demoWalls }

/-- A concrete DRAW-mode release state used for the merge-switch scenario:
a last placed corner exists and the pointer has not moved since press. -/
def demoDrawRelease : ControllerState :=
  { demoState with mode := FloorplanMode.DRAW, lastNode := some demoCorner,
                   mouseMoved := false }

/-! ## Claim theorems -/

/-- C8: for every model coordinate and every view origin, converting with
convertX / convertY and then applying the pixel-to-model transform of the
pointer handler returns the original coordinate, exactly, in rational
arithmetic. -/
theorem convert_roundtrip :
    ∀ (originX originY x y : ℚ),
      pixelToModel originX (convertX originX x) = x ∧
      pixelToModel originY (convertY originY y) = y := by
  intro originX originY x y
  constructor <;>
    · simp only [pixelToModel, convertX, convertY, pixelsPerCm, cmPerPixel, cmPerFoot,
        pixelsPerFoot]
      ring

/-- C2: for every state and every mode value, setMode leaves the active
corner, wall and item and the last placed corner null, clears the model
selection, installs the new mode, recomputes the draw target for the new mode
(with the last placed corner cleared, the target is the raw pointer position
in every mode), and fires exactly one mode-changed event carrying the new
mode; it is a total function, so it always succeeds. -/
theorem setMode_spec :
    ∀ (s : ControllerState) (m : FloorplanMode),
      (setMode s m).activeCorner = none ∧
      (setMode s m).activeWall = none ∧
      (setMode s m).activeItem = none ∧
      (setMode s m).lastNode = none ∧
      (setMode s m).selectedItem = none ∧
      (setMode s m).mode = m ∧
      (setMode s m).targetX = s.mouseX ∧
      (setMode s m).targetY = s.mouseY ∧
      (setMode s m).modeEvents = s.modeEvents ++ [m] := by
  intro s m
  cases m <;> simp [setMode, updateTarget]

/-- C3: updating the draw target in DRAW mode with a last placed corner
snaps each axis independently to that corner within the snap tolerance and
follows the raw pointer otherwise; in any other mode, or with no last placed
corner, the target is the raw pointer position. -/
theorem updateTarget_snapping :
    (∀ (s : ControllerState) (n : Corner),
      s.mode = FloorplanMode.DRAW → s.lastNode = some n →
        (updateTarget s).targetX = (if |s.mouseX - n.x| < snapTolerance then n.x else s.mouseX) ∧
        (updateTarget s).targetY = (if |s.mouseY - n.y| < snapTolerance then n.y else s.mouseY)) ∧
    (∀ (s : ControllerState),
      s.mode ≠ FloorplanMode.DRAW ∨ s.lastNode = none →
        (updateTarget s).targetX = s.mouseX ∧ (updateTarget s).targetY = s.mouseY) := by
  constructor
  · intro s n hm hn
    simp [updateTarget, hm, hn]
  · intro s h
    rcases h with h | h
    · cases hm : s.mode <;> cases hn : s.lastNode <;> simp_all [updateTarget]
    · cases hm : s.mode <;> simp_all [updateTarget]

/-- C3 witness: a concrete DRAW-mode state whose pointer is within tolerance
of the last node on x and outside it on y. -/
theorem updateTarget_snapping_witness :
    (updateTarget demoDrawState).targetX = 100 ∧
    (updateTarget demoDrawState).targetY = 300 := by
  have h := updateTarget_snapping.1 demoDrawState demoCorner rfl rfl
  rcases h with ⟨hx, hy⟩
  constructor
  · rw [hx]; norm_num [demoCorner, demoDrawState, demoState, snapTolerance]
  · rw [hy]; norm_num [demoCorner, demoDrawState, demoState, snapTolerance]

/-- C10: removing a listener deletes every occurrence of it, so a subsequent
fire invokes it zero times and leaves the multiplicity of every other
listener unchanged; fire invokes the registered listeners in registration
order, passing the payload to each (stated through the invocation trace,
position by position). -/
theorem callback_remove_fire (L T : Type) [DecidableEq L]
    (c : Callback L) (f : L) (ev : Option T) :
    (∀ p ∈ (c.remove f).fire ev, p.1 ≠ f) ∧
    ((c.remove f).callbacks.count f = 0) ∧
    (∀ g, g ≠ f → (c.remove f).callbacks.count g = c.callbacks.count g) ∧
    (∀ i : Nat, ((c.fire ev)[i]? = (c.callbacks[i]?).map (fun cb => (cb, ev)))) := by
  refine ⟨?_, ?_, ?_, ?_⟩
  · rintro ⟨a, b⟩ hp
    simp only [Callback.fire, Callback.remove, List.mem_map, List.mem_filter] at hp
    rcases hp with ⟨cb, ⟨_, hne⟩, heq⟩
    cases heq
    simpa using hne
  · rw [List.count_eq_zero]
    simp [Callback.remove]
  · intro g hg
    simp only [Callback.remove]
    exact List.count_filter (by simpa using hg)
  · intro i
    simp [Callback.fire]

/-- C10 witness: a registry holding the listener 1 twice; after remove, the
listener 1 is gone, listener 2 keeps its multiplicity, and the listener
invoked at position 0 of the trace is not 1. -/
theorem callback_remove_fire_witness :
    ((Callback.mk [1, 2, 1, 3]).remove 1).callbacks.count 1 = 0 ∧
    ((Callback.mk [1, 2, 1, 3]).remove 1).callbacks.count 2
      = (Callback.mk [1, 2, 1, 3] : Callback Nat).callbacks.count 2 ∧
    ((2 : Nat), (some 5 : Option Nat)).1 ≠ 1 := by
  refine ⟨?_, ?_, ?_⟩
  · exact (callback_remove_fire Nat Nat (Callback.mk [1, 2, 1, 3]) 1 (some 5)).2.1
  · exact (callback_remove_fire Nat Nat (Callback.mk [1, 2, 1, 3]) 1 (some 5)).2.2.1 2
      (by decide)
  · exact (callback_remove_fire Nat Nat (Callback.mk [1, 2, 1, 3]) 1 (some 5)).1
      (2, some 5) (by decide)

/-! ## C4: the duplicate-wall suppressor -/

/-- Removing every collected wall in turn amounts to one filter keeping the
walls whose identifier is hit by no collected duplicate. -/
theorem foldl_wallRemove_eq_filter :
    ∀ (dups walls : List Wall),
      dups.foldl wallRemoveFromList walls
        = walls.filter (fun w => dups.all (fun d => w.id != d.id)) := by
  intro dups
  induction dups with
  | nil => intro walls; simp
  | cons d ds ih =>
    intro walls
    rw [List.foldl_cons, ih, wallRemoveFromList, List.filter_filter]
    apply List.filter_congr
    intro a _
    simp [List.all_cons, Bool.and_comm]

/-- Every collected duplicate is one of the scanned walls. -/
theorem wallDuplicates_subset :
    ∀ (l : List Wall) (w : Wall), w ∈ wallDuplicates l → w ∈ l := by
  intro l
  induction l with
  | nil => intro w h; simp [wallDuplicates] at h
  | cons a rest ih =>
    intro w h
    simp only [wallDuplicates, List.mem_append] at h
    rcases h with h | h
    · exact List.mem_cons_of_mem a (List.mem_of_mem_filter h)
    · exact List.mem_cons_of_mem a (ih w h)

/-- The walls surviving the suppressor are exactly those rejected by no
earlier same-pair wall, stated in a form generalized over the walls already
scanned. -/
theorem filter_dups_eq_dedupAux :
    ∀ (l seen : List Wall), ((seen ++ l).map Wall.id).Nodup →
      l.filter (fun v => seen.all (fun p => !(sameWallPair p v))
          && (wallDuplicates l).all (fun d => v.id != d.id))
        = wallDedupSpecAux seen l := by
  intro l
  induction l with
  | nil => intro seen _; simp [wallDedupSpecAux]
  | cons w rest ih =>
    intro seen hnd
    have hrests : ((w :: rest).map Wall.id).Nodup := by
      rw [List.map_append] at hnd
      exact hnd.of_append_right
    have hwid : Wall.id w ∉ rest.map Wall.id := by
      rw [List.map_cons, List.nodup_cons] at hrests
      exact hrests.1
    have hinj : ∀ x ∈ rest, ∀ y ∈ rest, Wall.id x = Wall.id y → x = y := by
      have : (rest.map Wall.id).Nodup := by
        rw [List.map_cons, List.nodup_cons] at hrests
        exact hrests.2
      exact fun x hx y hy he => List.inj_on_of_nodup_map this hx hy he
    have hIHnd : (((seen ++ [w]) ++ rest).map Wall.id).Nodup := by
      have he : (seen ++ [w]) ++ rest = seen ++ w :: rest := by simp
      rw [he]; exact hnd
    -- the head wall is never among the collected duplicates
    have hheadall : ((wallDuplicates (w :: rest)).all (fun d => Wall.id w != Wall.id d)) = true := by
      rw [List.all_eq_true]
      intro d hd
      have hdr : d ∈ rest := by
        simp only [wallDuplicates, List.mem_append] at hd
        rcases hd with h | h
        · exact List.mem_of_mem_filter h
        · exact wallDuplicates_subset rest d h
      have hne : Wall.id w ≠ Wall.id d :=
        fun he => hwid (he ▸ List.mem_map_of_mem Wall.id hdr)
      simpa [bne_iff_ne] using hne
    -- pointwise agreement of the two keep predicates on the tail
    have hpoint : ∀ v ∈ rest,
        (seen.all (fun p => !(sameWallPair p v))
          && (wallDuplicates (w :: rest)).all (fun d => Wall.id v != Wall.id d))
        = ((seen ++ [w]).all (fun p => !(sameWallPair p v))
          && (wallDuplicates rest).all (fun d => Wall.id v != Wall.id d)) := by
      intro v hv
      have hA : ((rest.filter (fun w2 => Wall.id w != Wall.id w2 && sameWallPair w w2)).all
          (fun d => Wall.id v != Wall.id d)) = !(sameWallPair w v) := by
        by_cases hsp : sameWallPair w v = true
        · have hwv : Wall.id w ≠ Wall.id v :=
            fun he => hwid (he ▸ List.mem_map_of_mem Wall.id hv)
          have hAv : (Wall.id w != Wall.id v && sameWallPair w v) = true := by
            simp [bne_iff_ne, hwv, hsp]
          have hvmem : v ∈ rest.filter (fun w2 => Wall.id w != Wall.id w2 && sameWallPair w w2) :=
            List.mem_filter.2 ⟨hv, hAv⟩
          have hfalse : ((rest.filter (fun w2 => Wall.id w != Wall.id w2 && sameWallPair w w2)).all
              (fun d => Wall.id v != Wall.id d)) = false := by
            refine Bool.eq_false_iff.2 (fun hall => ?_)
            have := List.all_eq_true.1 hall v hvmem
            simp at this
          rw [hfalse, hsp]; rfl
        · have htrue : ((rest.filter (fun w2 => Wall.id w != Wall.id w2 && sameWallPair w w2)).all
              (fun d => Wall.id v != Wall.id d)) = true := by
            rw [List.all_eq_true]
            intro d hd
            have hdr := List.mem_of_mem_filter hd
            have hAd := (List.mem_filter.1 hd).2
            have hne : Wall.id v ≠ Wall.id d := by
              intro he
              have hdv : d = v := hinj d hdr v hv he.symm
              rw [hdv] at hAd
              simp only [Bool.and_eq_true] at hAd
              exact hsp hAd.2
            simpa [bne_iff_ne] using hne
          rw [htrue]
          have hspf : sameWallPair w v = false := Bool.eq_false_iff.2 hsp
          rw [hspf]; rfl
      simp only [wallDuplicates, List.all_append, List.all_cons, List.all_nil, hA,
        Bool.and_true]
      rw [← Bool.and_assoc]
    rw [List.filter_cons]
    by_cases hany : (seen.any (fun p => sameWallPair p w)) = true
    · have hall : (seen.all (fun p => !(sameWallPair p w))) = false := by
        rcases List.any_eq_true.1 hany with ⟨p, hp, hpw⟩
        refine Bool.eq_false_iff.2 (fun halltrue => ?_)
        have := List.all_eq_true.1 halltrue p hp
        rw [hpw] at this
        exact Bool.false_ne_true this
      rw [hheadall]
      simp only [hall, Bool.false_and, if_false, wallDedupSpecAux, hany, if_true]
      rw [← ih (seen ++ [w]) hIHnd]
      exact List.filter_congr hpoint
    · have hanyf : (seen.any (fun p => sameWallPair p w)) = false := Bool.eq_false_iff.2 hany
      have hall : (seen.all (fun p => !(sameWallPair p w))) = true := by
        rw [List.all_eq_true]
        intro p hp
        have : sameWallPair p w = false := by
          refine Bool.eq_false_iff.2 (fun hpw => ?_)
          exact hany (List.any_eq_true.2 ⟨p, hp, hpw⟩)
        rw [this]; rfl
      rw [hheadall]
      simp only [hall, Bool.true_and, if_true, wallDedupSpecAux, hanyf, if_false]
      congr 1
      rw [← ih (seen ++ [w]) hIHnd]
      exact List.filter_congr hpoint

/-- C4: on a wall list with distinct wall identities, the duplicate-wall
suppressor removes exactly the walls that connect the same two corners (in
either orientation) as a wall appearing earlier in the list: the result is
the first-occurrence-per-pair filter of the claim, so for each unordered
corner pair only the first wall connecting it remains and walls connecting
distinct pairs are untouched. -/
theorem checkWallDuplicates_spec :
    ∀ walls : List Wall, (walls.map Wall.id).Nodup →
      checkWallDuplicates walls = wallDedupSpec walls := by
  intro walls h
  rw [checkWallDuplicates, foldl_wallRemove_eq_filter, wallDedupSpec]
  rw [← filter_dups_eq_dedupAux walls [] (by simpa using h)]
  apply List.filter_congr
  intro a _
  simp

/-- C4 witness: on the concrete list demoWalls, whose identifiers are
distinct, the suppressor agrees with the first-occurrence filter, and it
keeps exactly walls 1 and 3. -/
theorem checkWallDuplicates_spec_witness :
    (demoWalls.map Wall.id).Nodup ∧
    checkWallDuplicates demoWalls = wallDedupSpec demoWalls ∧
    checkWallDuplicates demoWalls
      = [{ id := 1, getStart := 10, getEnd := 20 }, { id := 3, getStart := 30, getEnd := 40 }] := by
  refine ⟨by decide, checkWallDuplicates_spec demoWalls (by decide), by decide⟩

/-! ## C1: hit-testing precedence on pointer move -/

/-- Fields of the state that the hit-testing block leaves untouched. -/
theorem hitTest_preserves (env : PointerEnv) (s : ControllerState) :
    (hitTest env s).mouseDown = s.mouseDown ∧
    (hitTest env s).mode = s.mode ∧
    (hitTest env s).selectedItem = s.selectedItem := by
  unfold hitTest
  cases env.hoverItem <;> dsimp only <;> split_ifs <;> simp_all

/-- Hovered item wins: it becomes active and corner and wall are cleared. -/
theorem hitTest_item (env : PointerEnv) (s : ControllerState) (it : Nat)
    (h : env.hoverItem = some it) :
    (hitTest env s).activeItem = some it ∧
    (hitTest env s).activeCorner = none ∧
    (hitTest env s).activeWall = none := by
  unfold hitTest
  rw [h]
  dsimp only
  split_ifs <;> simp_all

/-- No hovered item but a hovered corner: the corner becomes active, item and
wall are cleared. -/
theorem hitTest_corner (env : PointerEnv) (s : ControllerState) (c : Nat)
    (h1 : env.hoverItem = none) (h2 : env.hoverCorner = some c) :
    (hitTest env s).activeItem = none ∧
    (hitTest env s).activeCorner = some c ∧
    (hitTest env s).activeWall = none := by
  unfold hitTest
  rw [h1, h2]
  dsimp only
  rcases hac : s.activeCorner with _ | c0
  · simp [hac, apply_ite]
  · by_cases he : c0 = c
    · subst he
      simp [hac, apply_ite]
    · have hb : (some c != some c0) = true := by
        simp only [bne_iff_ne, Ne, Option.some.injEq]
        exact fun h => he h.symm
      simp [hac, hb, apply_ite]

/-- Neither item nor corner hovered: the hovered wall (possibly none) ends up
active, item and corner are cleared. -/
theorem hitTest_wall (env : PointerEnv) (s : ControllerState)
    (h1 : env.hoverItem = none) (h2 : env.hoverCorner = none) :
    (hitTest env s).activeItem = none ∧
    (hitTest env s).activeCorner = none ∧
    (hitTest env s).activeWall = env.hoverWall := by
  unfold hitTest
  rw [h1, h2]
  dsimp only
  split_ifs <;> first | exact False.elim (by assumption) | simp_all

/-- A redraw out of the hit-testing block implies the hit result changed. -/
theorem hitTest_redraw_only_if_changed (env : PointerEnv) (s : ControllerState) :
    (hitTest env s).redraws ≠ s.redraws →
    ¬((hitTest env s).activeItem = s.activeItem ∧
      (hitTest env s).activeCorner = s.activeCorner ∧
      (hitTest env s).activeWall = s.activeWall) := by
  intro h hcon
  apply h
  rcases hcon with ⟨hi', hc', hw'⟩
  rcases hhi : env.hoverItem with _ | it
  · rcases hhc : env.hoverCorner with _ | c
    · obtain ⟨f1, f2, f3⟩ := hitTest_wall env s hhi hhc
      have e1 : s.activeItem = none := by rw [← hi', f1]
      have e2 : s.activeCorner = none := by rw [← hc', f2]
      have e3 : s.activeWall = env.hoverWall := by rw [← hw', f3]
      simp [hitTest, hhi, hhc, e1, e2, e3]
    · obtain ⟨f1, f2, f3⟩ := hitTest_corner env s c hhi hhc
      have e1 : s.activeItem = none := by rw [← hi', f1]
      have e2 : s.activeCorner = some c := by rw [← hc', f2]
      simp [hitTest, hhi, hhc, e1, e2]
  · obtain ⟨f1, f2, f3⟩ := hitTest_item env s it hhi
    have e1 : s.activeItem = some it := by rw [← hi', f1]
    simp [hitTest, hhi, e1]

/-- With the mode away from DRAW and the button up, the pointer-move handler
is the pointer update followed by hit-testing: the target, panning and
dragging blocks do not run. -/
theorem mousemove_not_draw_up (env : PointerEnv) (s : ControllerState)
    (hm : s.mode ≠ FloorplanMode.DRAW) (hd : s.mouseDown = false) :
    mousemove env s = hitTest env (mousemoveUpdateMouse env s) := by
  have ht : targetStage (mousemoveUpdateMouse env s) = mousemoveUpdateMouse env s := by
    unfold targetStage mousemoveUpdateMouse
    dsimp only
    rw [if_neg]
    rintro (ha | hb)
    · exact hm ha
    · rw [hd] at hb
      exact Bool.false_ne_true hb.2
  have hh : hitTestStage env (mousemoveUpdateMouse env s)
      = hitTest env (mousemoveUpdateMouse env s) := by
    unfold hitTestStage mousemoveUpdateMouse
    dsimp only
    rw [if_pos]
    exact ⟨hm, hd⟩
  have hp : panStage env (hitTest env (mousemoveUpdateMouse env s))
      = hitTest env (mousemoveUpdateMouse env s) := by
    unfold panStage
    rw [if_neg]
    rintro ⟨hdown, -⟩
    have hpres := (hitTest_preserves env (mousemoveUpdateMouse env s)).1
    rw [hpres] at hdown
    simp [mousemoveUpdateMouse, hd] at hdown
  have hg : dragStage env (hitTest env (mousemoveUpdateMouse env s))
      = hitTest env (mousemoveUpdateMouse env s) := by
    unfold dragStage
    rw [if_neg]
    rintro ⟨-, hdown⟩
    have hpres := (hitTest_preserves env (mousemoveUpdateMouse env s)).1
    rw [hpres] at hdown
    simp [mousemoveUpdateMouse, hd] at hdown
  unfold mousemove
  rw [ht, hh, hp, hg]

/-- C1: on a pointer move handled while the mode is not DRAW and the button
is up, hit-testing precedence holds: a hovered item becomes the active item
and clears corner and wall; otherwise a hovered corner becomes the active
corner and clears the wall; only with neither hovered does the hovered wall
(possibly none) become the active wall; and a redraw is requested only if the
hit result changed. -/
theorem mousemove_hit_precedence (env : PointerEnv) (s : ControllerState)
    (hm : s.mode ≠ FloorplanMode.DRAW) (hd : s.mouseDown = false) :
    (∀ it, env.hoverItem = some it →
      (mousemove env s).activeItem = some it ∧
      (mousemove env s).activeCorner = none ∧
      (mousemove env s).activeWall = none) ∧
    (∀ c, env.hoverItem = none → env.hoverCorner = some c →
      (mousemove env s).activeItem = none ∧
      (mousemove env s).activeCorner = some c ∧
      (mousemove env s).activeWall = none) ∧
    (env.hoverItem = none → env.hoverCorner = none →
      (mousemove env s).activeItem = none ∧
      (mousemove env s).activeCorner = none ∧
      (mousemove env s).activeWall = env.hoverWall) ∧
    ((mousemove env s).redraws ≠ s.redraws →
      ¬((mousemove env s).activeItem = s.activeItem ∧
        (mousemove env s).activeCorner = s.activeCorner ∧
        (mousemove env s).activeWall = s.activeWall)) := by
  have hred := mousemove_not_draw_up env s hm hd
  refine ⟨?_, ?_, ?_, ?_⟩
  · intro it hi
    rw [hred]
    exact hitTest_item env (mousemoveUpdateMouse env s) it hi
  · intro c hi hc
    rw [hred]
    exact hitTest_corner env (mousemoveUpdateMouse env s) c hi hc
  · intro hi hc
    rw [hred]
    exact hitTest_wall env (mousemoveUpdateMouse env s) hi hc
  · rw [hred]
    exact hitTest_redraw_only_if_changed env (mousemoveUpdateMouse env s)

/-- C1 witness: hovering item 5 in MOVE mode with the button up makes it the
active item and clears corner and wall. -/
theorem mousemove_hit_precedence_witness :
    (mousemove { demoEnv with hoverItem := some 5 } demoState).activeItem = some 5 ∧
    (mousemove { demoEnv with hoverItem := some 5 } demoState).activeCorner = none ∧
    (mousemove { demoEnv with hoverItem := some 5 } demoState).activeWall = none :=
  (mousemove_hit_precedence { demoEnv with hoverItem := some 5 } demoState
    (by decide) rfl).1 5 rfl

/-! ## C5: mutual exclusion of the active selections -/

/-- setMode clears the three active selections, the last placed corner and
the model selection, installs the mode and logs the event. -/
theorem setMode_actives (s : ControllerState) (m : FloorplanMode) :
    (setMode s m).activeCorner = none ∧
    (setMode s m).activeWall = none ∧
    (setMode s m).activeItem = none ∧
    (setMode s m).lastNode = none ∧
    (setMode s m).selectedItem = none ∧
    (setMode s m).mode = m ∧
    (setMode s m).modeEvents = s.modeEvents ++ [m] := by
  cases m <;> simp [setMode, updateTarget]

/-- updateTarget only writes the target coordinates. -/
theorem updateTarget_actives (s : ControllerState) :
    (updateTarget s).activeCorner = s.activeCorner ∧
    (updateTarget s).activeWall = s.activeWall ∧
    (updateTarget s).activeItem = s.activeItem := by
  unfold updateTarget
  split <;> simp

/-- Mutual exclusion transfers along equality of the three selections. -/
theorem activeExclusive_congr {a b : ControllerState}
    (hc : a.activeCorner = b.activeCorner) (hw : a.activeWall = b.activeWall)
    (hi : a.activeItem = b.activeItem) (h : activeExclusive b) : activeExclusive a := by
  unfold activeExclusive at h ⊢
  rw [hc, hw, hi]
  exact h

/-- The hit-testing block always leaves at most one selection active. -/
theorem hitTest_exclusive (env : PointerEnv) (s : ControllerState) :
    activeExclusive (hitTest env s) := by
  rcases hhi : env.hoverItem with _ | it
  · rcases hhc : env.hoverCorner with _ | c
    · obtain ⟨f1, f2, f3⟩ := hitTest_wall env s hhi hhc
      exact Or.inr (Or.inl ⟨f2, f1⟩)
    · obtain ⟨f1, f2, f3⟩ := hitTest_corner env s c hhi hhc
      exact Or.inr (Or.inr ⟨f3, f1⟩)
  · obtain ⟨f1, f2, f3⟩ := hitTest_item env s it hhi
    exact Or.inl ⟨f2, f3⟩

/-- setMode always leaves at most one selection active. -/
theorem setMode_exclusive (s : ControllerState) (m : FloorplanMode) :
    activeExclusive (setMode s m) :=
  Or.inl ⟨(setMode_actives s m).1, (setMode_actives s m).2.1⟩

/-- The press handler preserves mutual exclusion. -/
theorem mousedown_exclusive (env : PointerEnv) (s : ControllerState)
    (h : activeExclusive s) : activeExclusive (mousedown env s) := by
  rcases hcor : s.activeCorner with _ | c <;>
    rcases hwal : s.activeWall with _ | w <;>
    rcases hit : s.activeItem with _ | i <;>
    by_cases hmode : s.mode = FloorplanMode.DELETE <;>
    simp_all [activeExclusive, mousedown, emitChanges, cornerRemoveAll, wallRemoveState,
      itemRemoveState, setMode_actives]

/-- The target block preserves the three selections. -/
theorem targetStage_actives (s : ControllerState) :
    (targetStage s).activeCorner = s.activeCorner ∧
    (targetStage s).activeWall = s.activeWall ∧
    (targetStage s).activeItem = s.activeItem := by
  unfold targetStage
  split_ifs
  · exact ⟨(updateTarget_actives s).1, (updateTarget_actives s).2.1,
      (updateTarget_actives s).2.2⟩
  · exact ⟨rfl, rfl, rfl⟩

/-- The panning block preserves the three selections. -/
theorem panStage_actives (env : PointerEnv) (s : ControllerState) :
    (panStage env s).activeCorner = s.activeCorner ∧
    (panStage env s).activeWall = s.activeWall ∧
    (panStage env s).activeItem = s.activeItem := by
  unfold panStage
  split_ifs <;> simp

/-- The dragging block preserves the three selections. -/
theorem dragStage_actives (env : PointerEnv) (s : ControllerState) :
    (dragStage env s).activeCorner = s.activeCorner ∧
    (dragStage env s).activeWall = s.activeWall ∧
    (dragStage env s).activeItem = s.activeItem := by
  unfold dragStage emitChanges
  split_ifs <;> simp

/-- The pointer-move handler preserves mutual exclusion. -/
theorem mousemove_exclusive (env : PointerEnv) (s : ControllerState)
    (h : activeExclusive s) : activeExclusive (mousemove env s) := by
  unfold mousemove
  have h1 : activeExclusive (hitTestStage env (targetStage (mousemoveUpdateMouse env s))) := by
    unfold hitTestStage
    split_ifs
    · exact hitTest_exclusive env _
    · refine activeExclusive_congr ?_ ?_ ?_ h
      · exact (targetStage_actives _).1
      · exact (targetStage_actives _).2.1
      · exact (targetStage_actives _).2.2
  refine activeExclusive_congr ?_ ?_ ?_
    (activeExclusive_congr (panStage_actives env _).1 (panStage_actives env _).2.1
      (panStage_actives env _).2.2 h1)
  · exact (dragStage_actives env _).1
  · exact (dragStage_actives env _).2.1
  · exact (dragStage_actives env _).2.2

/-- The selected-item block of the release handler keeps the selections. -/
theorem mouseupSelected_actives (env : PointerEnv) (s : ControllerState) :
    (mouseupSelected env s).activeCorner = s.activeCorner ∧
    (mouseupSelected env s).activeWall = s.activeWall ∧
    (mouseupSelected env s).activeItem = s.activeItem := by
  unfold mouseupSelected emitChanges
  split_ifs <;> simp

/-- The drawing block of the release handler preserves mutual exclusion. -/
theorem mouseupDraw_exclusive (env : PointerEnv) (s : ControllerState)
    (h : activeExclusive s) : activeExclusive (mouseupDraw env s) := by
  unfold mouseupDraw emitChanges
  dsimp only
  rcases hln : s.lastNode with _ | ln
  · simp only [hln]
    split_ifs with hcond
    · exact absurd hcond.2 (by simp)
    · refine activeExclusive_congr ?_ ?_ ?_ h <;> simp
  · simp only [hln]
    split_ifs with hcond
    · exact Or.inl ⟨rfl, rfl⟩
    · refine activeExclusive_congr ?_ ?_ ?_ h <;> simp

/-- The release handler preserves mutual exclusion. -/
theorem mouseup_exclusive (env : PointerEnv) (s : ControllerState)
    (h : activeExclusive s) : activeExclusive (mouseup env s) := by
  unfold mouseup
  dsimp only
  have hsel : activeExclusive (mouseupSelected env { s with mouseDown := false }) := by
    refine activeExclusive_congr (mouseupSelected_actives env _).1
      (mouseupSelected_actives env _).2.1 (mouseupSelected_actives env _).2.2 ?_
    exact activeExclusive_congr rfl rfl rfl h
  split_ifs
  · exact mouseupDraw_exclusive env _ hsel
  · split
    · refine activeExclusive_congr ?_ ?_ ?_ hsel <;> simp
    · refine activeExclusive_congr ?_ ?_ ?_ hsel <;> simp
  · exact hsel

/-- C5: every controller operation (mode change, pointer press, move, release
and leave, Escape) preserves the invariant that at most one of the active
corner, active wall and active item is non-null; the operations that set one
of the three leave the other two null. -/
theorem step_active_exclusive (op : ControllerOp) (s : ControllerState)
    (h : activeExclusive s) : activeExclusive (step op s) := by
  cases op with
  | opSetMode m => exact setMode_exclusive s m
  | opMousedown env => exact mousedown_exclusive env s h
  | opMousemove env => exact mousemove_exclusive env s h
  | opMouseup env => exact mouseup_exclusive env s h
  | opMouseleave => exact Or.inl ⟨rfl, rfl⟩
  | opEscapeKey => exact setMode_exclusive s FloorplanMode.MOVE

/-- C5 witness: a state with an active wall keeps the invariant across a
pointer move that hits a corner. -/
theorem step_active_exclusive_witness :
    activeExclusive { demoState with activeWall := some 9 } ∧
    activeExclusive (step (ControllerOp.opMousemove { demoEnv with hoverCorner := some 2 })
      { demoState with activeWall := some 9 }) := by
  constructor
  · exact Or.inr (Or.inl ⟨rfl, rfl⟩)
  · exact step_active_exclusive
      (ControllerOp.opMousemove { demoEnv with hoverCorner := some 2 })
      { demoState with activeWall := some 9 } (Or.inr (Or.inl ⟨rfl, rfl⟩))

/-! ## C7: press in DELETE mode -/

/-- C7: a press in DELETE mode removes the active corner together with its
connected walls, else the active wall, else the active item, each removal
scheduling one debounced change notification; with nothing active no entity
is removed, nothing is scheduled, and the mode switches to MOVE. -/
theorem mousedown_delete_spec (env : PointerEnv) (s : ControllerState)
    (hmode : s.mode = FloorplanMode.DELETE) :
    (∀ c, s.activeCorner = some c →
      (mousedown env s).corners = s.corners.filter (fun q => q.id != c) ∧
      (mousedown env s).walls = s.walls.filter (fun w => w.getStart != c && w.getEnd != c) ∧
      (mousedown env s).items = s.items ∧
      (mousedown env s).scheduledChanges = s.scheduledChanges + 1 ∧
      (mousedown env s).mode = s.mode) ∧
    (∀ w, s.activeCorner = none → s.activeWall = some w →
      (mousedown env s).walls = s.walls.filter (fun x => x.id != w) ∧
      (mousedown env s).corners = s.corners ∧
      (mousedown env s).items = s.items ∧
      (mousedown env s).scheduledChanges = s.scheduledChanges + 1 ∧
      (mousedown env s).mode = s.mode) ∧
    (∀ i, s.activeCorner = none → s.activeWall = none → s.activeItem = some i →
      (mousedown env s).items = s.items.filter (fun x => x != i) ∧
      (mousedown env s).corners = s.corners ∧
      (mousedown env s).walls = s.walls ∧
      (mousedown env s).scheduledChanges = s.scheduledChanges + 1 ∧
      (mousedown env s).mode = s.mode) ∧
    (s.activeCorner = none → s.activeWall = none → s.activeItem = none →
      (mousedown env s).corners = s.corners ∧
      (mousedown env s).walls = s.walls ∧
      (mousedown env s).items = s.items ∧
      (mousedown env s).scheduledChanges = s.scheduledChanges ∧
      (mousedown env s).mode = FloorplanMode.MOVE ∧
      (mousedown env s).modeEvents = s.modeEvents ++ [FloorplanMode.MOVE]) := by
  refine ⟨?_, ?_, ?_, ?_⟩
  · intro c hc
    simp [mousedown, hmode, hc, emitChanges, cornerRemoveAll]
  · intro w hc hw
    simp [mousedown, hmode, hc, hw, emitChanges, wallRemoveState]
  · intro i hc hw hi
    simp [mousedown, hmode, hc, hw, hi, emitChanges, itemRemoveState]
  · intro hc hw hi
    simp [mousedown, hmode, hc, hw, hi, setMode, updateTarget]

/-- C7 witness: pressing in DELETE mode with corner 10 active removes the
corner and its two connected walls, keeps the unrelated wall and schedules
exactly one change notification. -/
theorem mousedown_delete_spec_witness :
    (mousedown demoEnv demoDeleteState).corners = [{ id := 20, x := 5, y := 5 }] ∧
    (mousedown demoEnv demoDeleteState).walls = [{ id := 3, getStart := 30, getEnd := 40 }] ∧
    (mousedown demoEnv demoDeleteState).scheduledChanges = 1 := by
  obtain ⟨h1, h2, h3, h4, h5⟩ :=
    (mousedown_delete_spec demoEnv demoDeleteState rfl).1 10 rfl
  refine ⟨?_, ?_, ?_⟩
  · rw [h1]; decide
  · rw [h2]; decide
  · rw [h4]; decide

/-! ## C6: what mode transitions clear -/

/-- C6 counterexample: a DRAW-mode release with a previous node and a merge
switches the mode to MOVE (firing a mode-changed event during the handling of
the release), yet at the end of the event the last placed corner is the newly
placed corner, not null. -/
theorem mode_transition_keeps_lastNode_counterexample :
    demoDrawRelease.mode = FloorplanMode.DRAW ∧
    (mouseup demoEnv demoDrawRelease).mode = FloorplanMode.MOVE ∧
    (mouseup demoEnv demoDrawRelease).modeEvents
      = demoDrawRelease.modeEvents ++ [FloorplanMode.MOVE] ∧
    (mouseup demoEnv demoDrawRelease).lastNode ≠ none := by
  refine ⟨rfl, ?_, ?_, ?_⟩ <;> decide

/-- C6 amended: the mode transitions through setMode, the Escape key and the
DELETE-mode fallback leave all active selections, the model selection and the
last placed corner null; the merge-triggered switch during a DRAW release
clears the active selections and the model selection but then sets the last
placed corner to the newly placed corner, which is non-null. -/
theorem mode_transitions_clear_amended :
    (∀ (s : ControllerState) (m : FloorplanMode),
      (setMode s m).activeCorner = none ∧ (setMode s m).activeWall = none ∧
      (setMode s m).activeItem = none ∧ (setMode s m).selectedItem = none ∧
      (setMode s m).lastNode = none) ∧
    (∀ s : ControllerState,
      (escapeKey s).activeCorner = none ∧ (escapeKey s).activeWall = none ∧
      (escapeKey s).activeItem = none ∧ (escapeKey s).selectedItem = none ∧
      (escapeKey s).lastNode = none) ∧
    (∀ (env : PointerEnv) (s : ControllerState),
      s.mode = FloorplanMode.DELETE → s.activeCorner = none → s.activeWall = none →
      s.activeItem = none →
      (mousedown env s).activeCorner = none ∧ (mousedown env s).activeWall = none ∧
      (mousedown env s).activeItem = none ∧ (mousedown env s).selectedItem = none ∧
      (mousedown env s).lastNode = none) ∧
    (∀ (env : PointerEnv) (s : ControllerState),
      s.mode = FloorplanMode.DRAW → s.mouseMoved = false → env.merged = true →
      s.lastNode.isSome = true →
      (mouseup env s).activeCorner = none ∧ (mouseup env s).activeWall = none ∧
      (mouseup env s).activeItem = none ∧ (mouseup env s).selectedItem = none ∧
      (mouseup env s).mode = FloorplanMode.MOVE ∧
      (mouseup env s).lastNode
        = some { id := env.newCornerId, x := s.targetX, y := s.targetY }) := by
  refine ⟨?_, ?_, ?_, ?_⟩
  · intro s m
    obtain ⟨h1, h2, h3, h4, h5, _, _⟩ := setMode_actives s m
    exact ⟨h1, h2, h3, h5, h4⟩
  · intro s
    obtain ⟨h1, h2, h3, h4, h5, _, _⟩ := setMode_actives s FloorplanMode.MOVE
    exact ⟨h1, h2, h3, h5, h4⟩
  · intro env s hmode hc hw hi
    simp [mousedown, hmode, hc, hw, hi, setMode, updateTarget]
  · intro env s h1 h2 h3 h4
    rcases hln : s.lastNode with _ | ln
    · rw [hln] at h4
      simp at h4
    · unfold mouseup mouseupSelected mouseupDraw emitChanges
      dsimp only
      split_ifs <;> simp_all [setMode, updateTarget]

/-- C6 amended witness: the concrete merge-switch release of the
counterexample state indeed ends with mode MOVE and the new corner as the
last node. -/
theorem mode_transitions_clear_amended_witness :
    (mouseup demoEnv demoDrawRelease).mode = FloorplanMode.MOVE ∧
    (mouseup demoEnv demoDrawRelease).selectedItem = none ∧
    (mouseup demoEnv demoDrawRelease).lastNode = some { id := 3, x := 0, y := 0 } := by
  obtain ⟨g1, g2, g3, g4, g5, g6⟩ :=
    mode_transitions_clear_amended.2.2.2 demoEnv demoDrawRelease rfl rfl rfl (by decide)
  refine ⟨g5, g4, ?_⟩
  rw [g6]
  decide

/-! ## C9: the debounced emitter -/

/-- One tick on a single armed timer with more than one tick left counts it
down. -/
theorem debTick_pos (w f : Nat) (h : 1 < w) :
    debTick { pending := [w], fired := f } = { pending := [w - 1], fired := f } := by
  have h1 : w - 1 ≠ 0 := by omega
  simp [debTick, h1]

/-- One tick on a single timer at its last tick fires the notification. -/
theorem debTick_one (f : Nat) :
    debTick { pending := [1], fired := f } = { pending := [], fired := f + 1 } := by
  simp [debTick]

/-- A tick with no armed timer does nothing. -/
theorem debTick_empty (f : Nat) :
    debTick { pending := [], fired := f } = { pending := [], fired := f } := by
  simp [debTick]

/-- Any number of ticks with no armed timer does nothing. -/
theorem debTicks_empty (n f : Nat) :
    debTick^[n] { pending := [], fired := f } = { pending := [], fired := f } := by
  induction n with
  | zero => rfl
  | succ n ih => rw [Function.iterate_succ_apply, debTick_empty, ih]

/-- Fewer ticks than the remaining quiet time only count the timer down. -/
theorem debTicks_countdown :
    ∀ (k w f : Nat), k < w →
      debTick^[k] { pending := [w], fired := f } = { pending := [w - k], fired := f } := by
  intro k
  induction k with
  | zero => intro w f _; simp
  | succ k ih =>
    intro w f h
    rw [Function.iterate_succ_apply', ih w f (by omega)]
    rw [debTick_pos _ _ (by omega)]
    have he : w - k - 1 = w - (k + 1) := by omega
    rw [he]

/-- Once the full quiet interval passes over one armed timer, exactly one
notification fires and the timer is disarmed. -/
theorem debTicks_fire (w f n : Nat) (hw : 0 < w) (hn : w ≤ n) :
    debTick^[n] { pending := [w], fired := f } = { pending := [], fired := f + 1 } := by
  have hsplit : n = (n - w) + (1 + (w - 1)) := by omega
  rw [hsplit, Function.iterate_add_apply, Function.iterate_add_apply]
  rw [debTicks_countdown (w - 1) w f (by omega)]
  have hww : w - (w - 1) = 1 := by omega
  rw [hww, Function.iterate_one, debTick_one, debTicks_empty]

/-- Unfolding one burst entry. -/
theorem debRunGaps_cons (d : DebounceState) (g : Nat) (gaps : List Nat) :
    debRunGaps d (g :: gaps) = debRunGaps (debTick^[g] (debTrigger d)) gaps := by
  simp [debRunGaps]

/-- During a burst whose gaps are all shorter than the quiet interval, no
notification fires: the state is one armed timer with time left and the
original delivered count. -/
theorem debRunGaps_state :
    ∀ (gaps : List Nat) (d : DebounceState), gaps ≠ [] →
      (∀ g ∈ gaps, g < debounceWait) →
      ∃ w, 0 < w ∧ w ≤ debounceWait ∧
        debRunGaps d gaps = { pending := [w], fired := d.fired } := by
  intro gaps
  induction gaps with
  | nil => intro d h _; exact absurd rfl h
  | cons g rest ih =>
    intro d _ hg
    have hglt : g < debounceWait := hg g (List.mem_cons_self g rest)
    have hstate : debTick^[g] (debTrigger d)
        = { pending := [debounceWait - g], fired := d.fired } := by
      have ht : debTrigger d = { pending := [debounceWait], fired := d.fired } := rfl
      rw [ht, debTicks_countdown g debounceWait d.fired hglt]
    rcases Decidable.em (rest = []) with hr | hr
    · subst hr
      refine ⟨debounceWait - g, by omega, by omega, ?_⟩
      rw [debRunGaps_cons, hstate]
      rfl
    · obtain ⟨w, hw1, hw2, hw3⟩ :=
        ih { pending := [debounceWait - g], fired := d.fired } hr
          (fun x hx => hg x (List.mem_cons_of_mem _ hx))
      refine ⟨w, hw1, hw2, ?_⟩
      rw [debRunGaps_cons, hstate, hw3]

/-- C9: at most one notification is pending at any time (triggering arms
exactly one timer, cancelling any pending one, and a tick never grows the
pending set), and a burst of triggers whose gaps all stay inside the quiet
interval, followed by a full quiet interval, delivers exactly one
notification and leaves nothing pending. -/
theorem debounce_single_notification :
    (∀ d : DebounceState, (debTrigger d).pending.length ≤ 1) ∧
    (∀ d : DebounceState, d.pending.length ≤ 1 → (debTick d).pending.length ≤ 1) ∧
    (∀ (gaps : List Nat) (d : DebounceState), gaps ≠ [] →
      (∀ g ∈ gaps, g < debounceWait) →
      (debTick^[debounceWait] (debRunGaps d gaps)).fired = d.fired + 1 ∧
      (debTick^[debounceWait] (debRunGaps d gaps)).pending = []) := by
  refine ⟨?_, ?_, ?_⟩
  · intro d
    simp [debTrigger]
  · intro d h
    simp only [debTick]
    calc ((d.pending.map (fun t => t - 1)).filter (fun t => t ≠ 0)).length
        ≤ (d.pending.map (fun t => t - 1)).length := List.length_filter_le _ _
      _ = d.pending.length := List.length_map _ _
      _ ≤ 1 := h
  · intro gaps d hne hg
    obtain ⟨w, hw1, hw2, hw3⟩ := debRunGaps_state gaps d hne hg
    rw [hw3, debTicks_fire w d.fired debounceWait hw1 hw2]
    exact ⟨rfl, rfl⟩

/-- C9 witness: three triggers separated by 5 and 99 ticks and followed by
the full quiet interval deliver exactly one notification. -/
theorem debounce_single_notification_witness :
    (debTick^[debounceWait] (debRunGaps { pending := [], fired := 0 } [5, 99, 0])).fired
      = 0 + 1 :=
  (debounce_single_notification.2.2 [5, 99, 0] { pending := [], fired := 0 }
    (by decide) (by decide)).1
